import Mathlib

/-!
Shallow embedding of the rule-based AC controller (`Q2_SD23001.py`):
a minimal rule engine with a condition evaluator (`evaluate_condition`),
a rule matcher (`rule_matches`), a decision arbiter (`run_rules`),
and the post-parse shape check of the rule loader (`load_rules_from_path`).

Python runtime values that can appear in facts, conditions and actions are
modelled by `PyVal` (ints, bools, strings, `None`, lists).  Python's
exception behaviour is made explicit: a computation that can raise is
`Except Unit _`, with `Except.error ()` standing for an uncaught exception
propagating to the caller.  Comparisons that Python evaluates inside the
`try` block of `evaluate_condition` are `Option Bool`, with `none` standing
for an exception that the `except` clause catches and turns into `False`.
-/

namespace RuleAC

/-- A Python scalar or list value, as they occur in facts, condition triples
and action payloads.  Lists are the only unhashable values in this fragment. -/
inductive PyVal where
  | int (n : Int)
  | bool (b : Bool)
  | str (s : String)
  | none
  | list (xs : List PyVal)

/-- A facts mapping: a string-keyed dict, as built by the host UI
(`facts = {"temperature": ..., ...}`). -/
abbrev Facts := List (String × PyVal)

/-- An action payload: a dict of output fields. -/
abbrev Action := List (String × PyVal)

/-- `True`/`False` as the Python ints they compare equal to. -/
def boolInt (b : Bool) : Int := if b then 1 else 0

mutual

/-- Python `==` on the modelled values.  Never raises.  Numeric values
(`int` and `bool`) compare by numeric value; lists compare pointwise. -/
def pyEq : PyVal → PyVal → Bool
  | PyVal.int a, PyVal.int b => a == b
  | PyVal.int a, PyVal.bool b => a == boolInt b
  | PyVal.bool a, PyVal.int b => boolInt a == b
  | PyVal.bool a, PyVal.bool b => a == b
  | PyVal.str a, PyVal.str b => a == b
  | PyVal.none, PyVal.none => true
  | PyVal.list xs, PyVal.list ys => pyEqList xs ys
  | _, _ => false

/-- Python `==` on lists: pointwise, equal length. -/
def pyEqList : List PyVal → List PyVal → Bool
  | [], [] => true
  | x :: xs, y :: ys => pyEq x y && pyEqList xs ys
  | _, _ => false

end

/-- Three-way comparison on `Int` (Python `<`, `<=`, `>`, `>=` outcomes). -/
def intCmp (a b : Int) : Ordering :=
  if a < b then Ordering.lt else if a = b then Ordering.eq else Ordering.gt

/-- Three-way comparison on `String`: lexicographic by character, as in
Python's string ordering. -/
def strCmpPy (a b : String) : Ordering :=
  if a < b then Ordering.lt else if a = b then Ordering.eq else Ordering.gt

mutual

/-- Python's ordering comparisons: `some o` when `a < b` / `a > b` etc. are
defined, `none` when Python raises `TypeError` (incompatible types, or any
ordering involving `None`).  `int` and `bool` are mutually comparable as
numbers; strings compare with strings; lists compare lexicographically,
skipping `==`-equal items and comparing the first differing pair. -/
def pyCmp : PyVal → PyVal → Option Ordering
  | PyVal.int a, PyVal.int b => some (intCmp a b)
  | PyVal.int a, PyVal.bool b => some (intCmp a (boolInt b))
  | PyVal.bool a, PyVal.int b => some (intCmp (boolInt a) b)
  | PyVal.bool a, PyVal.bool b => some (intCmp (boolInt a) (boolInt b))
  | PyVal.str a, PyVal.str b => some (strCmpPy a b)
  | PyVal.list xs, PyVal.list ys => pyCmpList xs ys
  | _, _ => Option.none

/-- Python list ordering: skip `==`-equal prefixes, decide on the first
differing pair; a strict prefix is smaller. -/
def pyCmpList : List PyVal → List PyVal → Option Ordering
  | [], [] => some Ordering.eq
  | [], _ :: _ => some Ordering.lt
  | _ :: _, [] => some Ordering.gt
  | x :: xs, y :: ys => if pyEq x y then pyCmpList xs ys else pyCmp x y

end

/-- Whether `needle` occurs as a contiguous substring of `hay`
(Python `needle in hay` for strings). -/
def strContains (hay needle : String) : Bool :=
  (List.range (hay.length + 1)).any (fun i => needle.data.isPrefixOf (hay.data.drop i))

/-- Python `a in b`: membership in a list (by `==`), substring test when both
are strings; `none` when Python raises `TypeError` (`b` not a container, or
`b` a string and `a` not a string). -/
def pyIn (a b : PyVal) : Option Bool :=
  match b with
  | PyVal.list ys => some (ys.any (fun y => pyEq a y))
  | PyVal.str t =>
      match a with
      | PyVal.str s => some (strContains t s)
      | _ => Option.none
  | _ => Option.none

/-- The keys of the source's operator dispatch table `OPS`. -/
def OPS : List String := ["==", "!=", ">", ">=", "<", "<=", "in", "not_in"]

/-- The comparison function stored in `OPS` for key `op`, applied to
`(a, b)`: `some r` if the Python call returns `r`, `none` if it raises
(caught by `evaluate_condition`).  For `op` outside `OPS` the result is
`none`; `evaluate_condition` never reaches that case. -/
def opsApply : String → PyVal → PyVal → Option Bool
  | "==", a, b => some (pyEq a b)
  | "!=", a, b => some (!pyEq a b)
  | ">", a, b => (pyCmp a b).map (fun o => o == Ordering.gt)
  | ">=", a, b => (pyCmp a b).map (fun o => o != Ordering.lt)
  | "<", a, b => (pyCmp a b).map (fun o => o == Ordering.lt)
  | "<=", a, b => (pyCmp a b).map (fun o => o != Ordering.gt)
  | "in", a, b => pyIn a b
  | "not_in", a, b => (pyIn a b).map (fun r => !r)
  | _, _, _ => Option.none

/-- Python `field not in facts`, negated (`field in facts`): raises
(`TypeError: unhashable`) when the probe is a list; otherwise tests key
membership in the string-keyed dict, so only string probes can be present. -/
def factsContains (facts : Facts) (field : PyVal) : Except Unit Bool :=
  match field with
  | PyVal.list _ => Except.error ()
  | PyVal.str s => Except.ok (facts.any (fun p => p.1 == s))
  | _ => Except.ok false

/-- Python `op not in OPS`, negated: raises for an unhashable (list) probe;
otherwise only the eight operator strings are keys. -/
def opInOps (op : PyVal) : Except Unit Bool :=
  match op with
  | PyVal.list _ => Except.error ()
  | PyVal.str s => Except.ok (OPS.contains s)
  | _ => Except.ok false

/-- Python `facts[field]` for a string key; the default branch is not
reached when the key is present. -/
def factsGet (facts : Facts) (s : String) : PyVal :=
  match facts.find? (fun p => p.1 == s) with
  | some p => p.2
  | Option.none => PyVal.none

/-- `evaluate_condition(facts, cond)` from the source:
arity guard, then `field not in facts or op not in OPS` (short-circuit, each
membership test can raise on an unhashable probe), then
`try: OPS[op](facts[field], value) except: False`. -/
def evaluate_condition (facts : Facts) (cond : List PyVal) : Except Unit Bool :=
  match cond with
  | [field, op, value] =>
      match factsContains facts field with
      | Except.error e => Except.error e
      | Except.ok false => Except.ok false
      | Except.ok true =>
          match opInOps op with
          | Except.error e => Except.error e
          | Except.ok false => Except.ok false
          | Except.ok true =>
              match field, op with
              | PyVal.str fs, PyVal.str os =>
                  Except.ok ((opsApply os (factsGet facts fs) value).getD false)
              | _, _ => Except.ok false
  | _ => Except.ok false

/-- A rule dict of the shape the spec's rule format describes: optional
`name`, `conditions`, `priority` and `action` keys (`Option.none` models an
absent key). -/
structure Rule where
  name : Option String
  conditions : Option (List (List PyVal))
  priority : Option Int
  action : Option Action

/-- Python `all(evaluate_condition(facts, c) for c in cs)`: short-circuits
on the first false condition, propagates a raised exception. -/
def allConditions (facts : Facts) : List (List PyVal) → Except Unit Bool
  | [] => Except.ok true
  | c :: cs =>
      match evaluate_condition facts c with
      | Except.error e => Except.error e
      | Except.ok false => Except.ok false
      | Except.ok true => allConditions facts cs

/-- `rule_matches(facts, rule)` from the source:
`all(evaluate_condition(facts, c) for c in rule.get("conditions", []))`. -/
def rule_matches (facts : Facts) (r : Rule) : Except Unit Bool :=
  allConditions facts (r.conditions.getD [])

/-- `[r for r in rules if rule_matches(facts, r)]`, propagating a raised
exception. -/
def filterRules (facts : Facts) : List Rule → Except Unit (List Rule)
  | [] => Except.ok []
  | r :: rs =>
      match rule_matches facts r with
      | Except.error e => Except.error e
      | Except.ok true => (filterRules facts rs).map (fun l => r :: l)
      | Except.ok false => filterRules facts rs

/-- `r.get("priority", 0)`. -/
def getPriority (r : Rule) : Int := r.priority.getD 0

/-- The sort relation of `sorted(fired, key=priority, reverse=True)`:
`a` may come before `b` when `a`'s priority is at least `b`'s. -/
def ruleGE (a b : Rule) : Prop := getPriority b ≤ getPriority a

instance : DecidableRel ruleGE := fun a b => Int.decLe (getPriority b) (getPriority a)

instance : IsTotal Rule ruleGE :=
  ⟨fun a b => (Int.le_total (getPriority a) (getPriority b)).symm⟩

instance : IsTrans Rule ruleGE :=
  ⟨fun _ _ _ h1 h2 => le_trans h2 h1⟩

/-- Python's `sorted(fired, key=lambda r: r.get("priority", 0), reverse=True)`
is the stable sort by descending priority; a stable sort by a fixed key is
extensionally unique, here realised by insertion sort. -/
def sortedByPriorityDesc (l : List Rule) : List Rule :=
  List.insertionSort ruleGE l

/-- The fixed fallback action returned when no rule matched. -/
def NO_RULE_MATCHED_ACTION : Action :=
  [("ac_mode", PyVal.str "REVIEW"), ("fan_speed", PyVal.str "-"),
   ("setpoint", PyVal.none), ("reason", PyVal.str "No rule matched")]

/-- The secondary fallback used when the winning rule has no `action` key. -/
def NO_ACTION_FALLBACK : Action :=
  [("ac_mode", PyVal.str "REVIEW"), ("fan_speed", PyVal.str "-"),
   ("setpoint", PyVal.none), ("reason", PyVal.str "No action")]

/-- `fired_sorted[0].get("action", fallback)`; the empty branch is not
reached, `run_rules` only calls this on the sort of a nonempty list. -/
def bestAction : List Rule → Action
  | [] => NO_ACTION_FALLBACK
  | b :: _ => b.action.getD NO_ACTION_FALLBACK

/-- `run_rules(facts, rules)` from the source: filter to the matching rules,
return the no-match fallback on an empty result, otherwise stable-sort by
descending priority and pair the winner's action with the sorted list. -/
def run_rules (facts : Facts) (rules : List Rule) :
    Except Unit (Action × List Rule) :=
  match filterRules facts rules with
  | Except.error e => Except.error e
  | Except.ok [] => Except.ok (NO_RULE_MATCHED_ACTION, [])
  | Except.ok (r :: rs) =>
      Except.ok (bestAction (sortedByPriorityDesc (r :: rs)), sortedByPriorityDesc (r :: rs))

/-- A parsed JSON document, as `json.load` returns it (numbers modelled as
integers; the loader never inspects them). -/
inductive JsonVal where
  | arr (xs : List JsonVal)
  | obj (kvs : List (String × JsonVal))
  | str (s : String)
  | num (n : Int)
  | bool (b : Bool)
  | null

/-- `DEFAULT_RULES_FALLBACK = []`. -/
def DEFAULT_RULES_FALLBACK : List Rule := []

/-- The post-parse logic of `load_rules_from_path`: reject any top-level
value that is not a JSON array with the source's error message, return an
array unchanged.  (Opening the file and parsing the JSON text are performed
by the host before this check.) -/
def load_rules_from_parsed (data : JsonVal) : Except String (List JsonVal) :=
  match data with
  | JsonVal.arr xs => Except.ok xs
  | _ => Except.error "Rules JSON must be a list of rules (JSON array)."

/-- The host's `try: rules = load_rules_from_path(...) except: rules =
DEFAULT_RULES_FALLBACK` boundary, over an already-shaped load result. -/
def rulesOrFallback (res : Except String (List Rule)) : List Rule :=
  match res with
  | Except.ok rs => rs
  | Except.error _ => DEFAULT_RULES_FALLBACK

/-- `rule_matches facts r` succeeded with `True`, as a boolean predicate:
the rules `run_rules` keeps. -/
def matchedB (facts : Facts) (r : Rule) : Bool :=
  match rule_matches facts r with
  | Except.ok true => true
  | _ => false

/-! ### Supporting lemmas -/

theorem allConditions_ok_true_iff (facts : Facts) (cs : List (List PyVal)) :
    allConditions facts cs = Except.ok true ↔
      ∀ c ∈ cs, evaluate_condition facts c = Except.ok true := by
  induction cs with
  | nil => simp [allConditions]
  | cons c cs ih =>
    cases h : evaluate_condition facts c with
    | error e => simp [allConditions, h]
    | ok b =>
      cases b with
      | false => simp [allConditions, h]
      | true => simp [allConditions, h, ih]

theorem filterRules_all_false (facts : Facts) (rs : List Rule)
    (h : ∀ r ∈ rs, rule_matches facts r = Except.ok false) :
    filterRules facts rs = Except.ok [] := by
  induction rs with
  | nil => rfl
  | cons r rs ih =>
    have hr := h r (List.mem_cons_self r rs)
    have ht := ih (fun x hx => h x (List.mem_cons_of_mem r hx))
    simp [filterRules, hr, ht]

theorem filterRules_ok_eq (facts : Facts) (rs : List Rule) :
    ∀ l : List Rule, filterRules facts rs = Except.ok l →
      l = rs.filter (matchedB facts) := by
  induction rs with
  | nil =>
    intro l h
    simp [filterRules] at h
    subst h
    rfl
  | cons r rs ih =>
    intro l h
    simp only [filterRules] at h
    cases hm : rule_matches facts r with
    | error e => rw [hm] at h; exact absurd h (by simp)
    | ok b =>
      cases b with
      | true =>
        rw [hm] at h
        cases hf : filterRules facts rs with
        | error e => rw [hf] at h; exact absurd h (by simp [Except.map])
        | ok t =>
          rw [hf] at h
          simp only [Except.map] at h
          have hl : l = r :: t := by
            cases h
            rfl
          subst hl
          rw [List.filter_cons_of_pos (by simp [matchedB, hm])]
          rw [ih t hf]
      | false =>
        rw [hm] at h
        rw [List.filter_cons_of_neg (by simp [matchedB, hm])]
        exact ih l h

/-- Case-analysis equation for `run_rules`: a raised match propagates. -/
theorem run_rules_of_error (facts : Facts) (rules : List Rule) (e : Unit)
    (hf : filterRules facts rules = Except.error e) :
    run_rules facts rules = Except.error e := by
  unfold run_rules
  rw [hf]

/-- Case-analysis equation for `run_rules`: no rule matched. -/
theorem run_rules_of_nil (facts : Facts) (rules : List Rule)
    (hf : filterRules facts rules = Except.ok []) :
    run_rules facts rules = Except.ok (NO_RULE_MATCHED_ACTION, []) := by
  unfold run_rules
  rw [hf]

/-- Case-analysis equation for `run_rules`: at least one rule matched. -/
theorem run_rules_of_cons (facts : Facts) (rules : List Rule) (r : Rule) (rs : List Rule)
    (hf : filterRules facts rules = Except.ok (r :: rs)) :
    run_rules facts rules
      = Except.ok (bestAction (sortedByPriorityDesc (r :: rs)),
                   sortedByPriorityDesc (r :: rs)) := by
  unfold run_rules
  rw [hf]

/-- Inserting a rule only puts strictly-higher-priority rules before it, so
the sublist of rules of any one fixed priority is extended at its front when
the inserted rule has that priority, and kept intact otherwise. -/
theorem filter_key_orderedInsert (k : Int) (r : Rule) (l : List Rule) :
    (List.orderedInsert ruleGE r l).filter (fun x => getPriority x == k)
      = if getPriority r == k
        then r :: l.filter (fun x => getPriority x == k)
        else l.filter (fun x => getPriority x == k) := by
  induction l with
  | nil =>
    cases h : (getPriority r == k) <;>
      simp [List.orderedInsert, List.filter, h]
  | cons b l ih =>
    by_cases hrb : ruleGE r b
    · rw [List.orderedInsert_of_le ruleGE l hrb]
      cases h : (getPriority r == k) <;>
        simp [List.filter, h]
    · have hlt : getPriority r < getPriority b := lt_of_not_le hrb
      simp only [List.orderedInsert, if_neg hrb]
      cases hb : (getPriority b == k) with
      | true =>
        have hbk : getPriority b = k := by
          exact beq_iff_eq.mp hb
        have hrk : (getPriority r == k) = false := by
          rw [beq_eq_false_iff_ne]
          intro hr
          rw [hr, hbk] at hlt
          exact lt_irrefl k hlt
        simp [List.filter_cons, hb, hrk, ih]
      | false =>
        simp [List.filter_cons, hb, ih]

/-- Stability of the priority sort: for each fixed priority `k`, the rules of
priority `k` appear in the sorted list in exactly their original order. -/
theorem filter_key_sortedByPriorityDesc (k : Int) (l : List Rule) :
    (sortedByPriorityDesc l).filter (fun x => getPriority x == k)
      = l.filter (fun x => getPriority x == k) := by
  induction l with
  | nil => rfl
  | cons r l ih =>
    simp only [sortedByPriorityDesc] at ih
    show (List.orderedInsert ruleGE r (List.insertionSort ruleGE l)).filter _ = _
    rw [filter_key_orderedInsert]
    cases h : (getPriority r == k) <;> simp [List.filter_cons, h, ih]

/-- The priority sort permutes its input. -/
theorem sortedByPriorityDesc_perm (l : List Rule) :
    (sortedByPriorityDesc l).Perm l :=
  List.perm_insertionSort ruleGE l

/-- The priority sort sorts by descending priority. -/
theorem sortedByPriorityDesc_sorted (l : List Rule) :
    (sortedByPriorityDesc l).Pairwise (fun a b => getPriority b ≤ getPriority a) :=
  List.sorted_insertionSort ruleGE l

/-! ### Claim theorems -/

/-- C1: whenever `run_rules` returns a result, the `fired_rules` component is
exactly the rules whose conditions all held (a permutation of the
match-filtered input list), it is sorted by descending `priority`, and for
every priority value the rules of that priority appear in their original
relative order from the input rule list (stable tie-break). -/
theorem run_rules_fired_exactly_sorted_stable (facts : Facts) (rules : List Rule)
    (act : Action) (fired : List Rule)
    (h : run_rules facts rules = Except.ok (act, fired)) :
    fired.Perm (rules.filter (matchedB facts)) ∧
    fired.Pairwise (fun a b => getPriority b ≤ getPriority a) ∧
    (∀ k : Int, fired.filter (fun r => getPriority r == k)
        = (rules.filter (matchedB facts)).filter (fun r => getPriority r == k)) := by
  cases hf : filterRules facts rules with
  | error e =>
    rw [run_rules_of_error facts rules e hf] at h
    exact absurd h (by simp)
  | ok l =>
    have hl := filterRules_ok_eq facts rules l hf
    cases l with
    | nil =>
      rw [run_rules_of_nil facts rules hf] at h
      rw [Except.ok.injEq, Prod.mk.injEq] at h
      obtain ⟨h1, h2⟩ := h
      subst h2
      rw [← hl]
      exact ⟨List.Perm.nil, List.Pairwise.nil, fun k => rfl⟩
    | cons r rs =>
      rw [run_rules_of_cons facts rules r rs hf] at h
      rw [Except.ok.injEq, Prod.mk.injEq] at h
      obtain ⟨h1, h2⟩ := h
      subst h2
      rw [← hl]
      exact ⟨sortedByPriorityDesc_perm (r :: rs),
             sortedByPriorityDesc_sorted (r :: rs),
             fun k => filter_key_sortedByPriorityDesc k (r :: rs)⟩

/-- A catch-all rule of priority 1 with no action payload, for witnesses. -/
def raW : Rule := Rule.mk Option.none (some []) (some 1) Option.none

/-- A catch-all rule of priority 2 with an action payload, for witnesses. -/
def rbW : Rule := Rule.mk Option.none (some []) (some 2) (some [("m", PyVal.str "B")])

theorem run_rules_fired_exactly_sorted_stable_witness :
    ([rbW, raW] : List Rule).Perm ([raW, rbW].filter (matchedB [])) ∧
    ([rbW, raW] : List Rule).Pairwise (fun a b => getPriority b ≤ getPriority a) ∧
    (∀ k : Int, ([rbW, raW] : List Rule).filter (fun r => getPriority r == k)
        = ([raW, rbW].filter (matchedB [])).filter (fun r => getPriority r == k)) :=
  run_rules_fired_exactly_sorted_stable [] [raW, rbW]
    [("m", PyVal.str "B")] [rbW, raW] rfl

/-- C2: if no rule's conditions hold (every rule evaluates to a clean
`False`), `run_rules` returns the fixed fallback action — `ac_mode` REVIEW,
`fan_speed` "-", `setpoint` None, reason "No rule matched" — with an empty
fired list. -/
theorem run_rules_no_match_fallback (facts : Facts) (rules : List Rule)
    (h : ∀ r ∈ rules, rule_matches facts r = Except.ok false) :
    run_rules facts rules = Except.ok (NO_RULE_MATCHED_ACTION, []) :=
  run_rules_of_nil facts rules (filterRules_all_false facts rules h)

theorem run_rules_no_match_fallback_witness :
    run_rules []
      [Rule.mk Option.none (some [[PyVal.str "x", PyVal.str "==", PyVal.int 1]])
        Option.none Option.none]
      = Except.ok (NO_RULE_MATCHED_ACTION, []) :=
  run_rules_no_match_fallback _ _ (by
    intro r hr
    rw [List.mem_singleton] at hr
    subst hr
    rfl)

/-- C4: a rule matches exactly when every condition in its `conditions`
sequence evaluates (cleanly) to true — logical AND — and in particular a
rule with an empty conditions list always matches. -/
theorem rule_matches_iff_all_conditions (facts : Facts) (r : Rule) :
    (rule_matches facts r = Except.ok true ↔
      ∀ c ∈ r.conditions.getD [], evaluate_condition facts c = Except.ok true) ∧
    (r.conditions = some [] → rule_matches facts r = Except.ok true) := by
  constructor
  · exact allConditions_ok_true_iff facts (r.conditions.getD [])
  · intro h
    simp [rule_matches, h, allConditions]

theorem rule_matches_iff_all_conditions_witness :
    rule_matches [("t", PyVal.int 0)]
      (Rule.mk Option.none (some []) Option.none Option.none) = Except.ok true :=
  (rule_matches_iff_all_conditions [("t", PyVal.int 0)]
    (Rule.mk Option.none (some []) Option.none Option.none)).2 rfl

/-- C8: `run_rules` is deterministic — equal facts mappings and equal rule
lists give equal results (the embedding is a pure function: the Python code
performs no I/O and never mutates its arguments). -/
theorem run_rules_deterministic (f g : Facts) (rs ts : List Rule)
    (hf : f = g) (hr : rs = ts) : run_rules f rs = run_rules g ts := by
  rw [hf, hr]

theorem run_rules_deterministic_witness :
    run_rules [("temperature", PyVal.int 25)] []
      = run_rules [("temperature", PyVal.int 25)] [] :=
  run_rules_deterministic [("temperature", PyVal.int 25)]
    [("temperature", PyVal.int 25)] [] [] rfl rfl

/-- C9: a rule with no `conditions` key at all (`r.get("conditions", [])`
defaulting to the empty list) matches unconditionally, exactly like a rule
with an empty conditions list. -/
theorem rule_matches_missing_conditions_key (facts : Facts) (r : Rule)
    (h : r.conditions = Option.none) : rule_matches facts r = Except.ok true := by
  simp [rule_matches, h, allConditions]

theorem rule_matches_missing_conditions_key_witness :
    rule_matches [("a", PyVal.int 1)]
      (Rule.mk Option.none Option.none (some 7) Option.none) = Except.ok true :=
  rule_matches_missing_conditions_key [("a", PyVal.int 1)]
    (Rule.mk Option.none Option.none (some 7) Option.none) rfl

/-- C5: when at least one rule matches (and evaluation succeeds), the action
returned by `run_rules` is the `action` payload of the first element of the
priority-sorted fired list, and if that winning rule has no `action` key the
secondary fallback (`ac_mode` REVIEW, reason "No action") is returned — the
result is never a missing field. -/
theorem run_rules_winner_action (facts : Facts) (rules : List Rule)
    (act : Action) (fired : List Rule)
    (h : run_rules facts rules = Except.ok (act, fired))
    (hm : ∃ r ∈ rules, rule_matches facts r = Except.ok true) :
    ∃ b rest, fired = b :: rest ∧ act = b.action.getD NO_ACTION_FALLBACK := by
  obtain ⟨r0, hr0, hm0⟩ := hm
  cases hf : filterRules facts rules with
  | error e =>
    rw [run_rules_of_error facts rules e hf] at h
    exact absurd h (by simp)
  | ok l =>
    have hl := filterRules_ok_eq facts rules l hf
    cases l with
    | nil =>
      exfalso
      have hmem : r0 ∈ rules.filter (matchedB facts) :=
        List.mem_filter.mpr ⟨hr0, by simp [matchedB, hm0]⟩
      rw [← hl] at hmem
      exact absurd hmem (List.not_mem_nil r0)
    | cons r rs =>
      rw [run_rules_of_cons facts rules r rs hf] at h
      obtain ⟨b, rest, hs⟩ : ∃ b rest, sortedByPriorityDesc (r :: rs) = b :: rest := by
        cases hsrt : sortedByPriorityDesc (r :: rs) with
        | nil =>
          have hlen := (sortedByPriorityDesc_perm (r :: rs)).length_eq
          rw [hsrt] at hlen
          exact absurd hlen.symm (by simp)
        | cons b rest => exact ⟨b, rest, rfl⟩
      rw [hs] at h
      rw [Except.ok.injEq, Prod.mk.injEq] at h
      obtain ⟨h1, h2⟩ := h
      exact ⟨b, rest, h2.symm, h1.symm⟩

/-- A matching rule with no `action` key, for the C5 witness. -/
def rnW : Rule := Rule.mk Option.none (some []) Option.none Option.none

theorem run_rules_winner_action_witness :
    ∃ b rest, ([rnW] : List Rule) = b :: rest ∧
      NO_ACTION_FALLBACK = b.action.getD NO_ACTION_FALLBACK :=
  run_rules_winner_action [] [rnW] NO_ACTION_FALLBACK [rnW] rfl
    ⟨rnW, List.mem_cons_self rnW [], rfl⟩

/-- The COOL rule of the spec's worked scenario. -/
def coolRule : Rule :=
  Rule.mk Option.none (some [[PyVal.str "temperature", PyVal.str ">", PyVal.int 28]])
    (some 5) (some [("mode", PyVal.str "COOL")])

/-- The DEHUMIDIFY rule of the spec's worked scenario. -/
def dehumidifyRule : Rule :=
  Rule.mk Option.none (some [[PyVal.str "humidity", PyVal.str ">", PyVal.int 60]])
    (some 3) (some [("mode", PyVal.str "DEHUMIDIFY")])

/-- C6: on the worked scenario — facts temperature 30, humidity 70,
occupancy OCCUPIED, rules COOL (priority 5) and DEHUMIDIFY (priority 3) —
both rules fire, the COOL action wins, and the fired list is ordered
[COOL rule, DEHUMIDIFY rule]. -/
theorem scenario_cool_wins :
    run_rules
      [("temperature", PyVal.int 30), ("humidity", PyVal.int 70),
       ("occupancy", PyVal.str "OCCUPIED")]
      [coolRule, dehumidifyRule]
    = Except.ok ([("mode", PyVal.str "COOL")], [coolRule, dehumidifyRule]) := rfl

/-- C7: the loader's shape check accepts exactly top-level JSON arrays,
returning the array unchanged; anything else is an error carrying the
source's descriptive message; on a failed load the host falls back to the
empty rule set, and running the core on the empty rule set yields the
universal no-rule-matched decision. -/
theorem load_rules_shape_check :
    (∀ xs : List JsonVal, load_rules_from_parsed (JsonVal.arr xs) = Except.ok xs) ∧
    (∀ d : JsonVal, (∀ xs : List JsonVal, d ≠ JsonVal.arr xs) →
      load_rules_from_parsed d
        = Except.error "Rules JSON must be a list of rules (JSON array).") ∧
    (∀ e : String, rulesOrFallback (Except.error e) = DEFAULT_RULES_FALLBACK) ∧
    (∀ facts : Facts, run_rules facts DEFAULT_RULES_FALLBACK
        = Except.ok (NO_RULE_MATCHED_ACTION, [])) := by
  refine ⟨fun _ => rfl, ?_, fun _ => rfl, fun _ => rfl⟩
  intro d hd
  cases d with
  | arr xs => exact absurd rfl (hd xs)
  | obj kvs => rfl
  | str s => rfl
  | num n => rfl
  | bool b => rfl
  | null => rfl

theorem load_rules_shape_check_witness :
    load_rules_from_parsed (JsonVal.obj [])
      = Except.error "Rules JSON must be a list of rules (JSON array)." :=
  load_rules_shape_check.2.1 (JsonVal.obj [])
    (fun _ h => JsonVal.noConfusion h)

/-- When the (string) field is a present key and the (string) operator is in
`OPS`, `evaluate_condition` is the `try`-guarded dispatch-table call. -/
theorem evaluate_condition_present (facts : Facts) (fs os : String) (value : PyVal)
    (hmem : facts.any (fun p => p.1 == fs) = true)
    (hop : OPS.contains os = true) :
    evaluate_condition facts [PyVal.str fs, PyVal.str os, value]
      = Except.ok ((opsApply os (factsGet facts fs) value).getD false) := by
  have hop2 : os ∈ OPS := by simpa using hop
  simp [evaluate_condition, factsContains, opInOps, hmem, hop2]

/-- C3 counterexample: the operator slot holding a list — a value outside the
enumerated operator set — makes the membership test `op not in OPS` itself
raise `TypeError: unhashable type`, which propagates to the caller instead of
evaluating to `False`. -/
theorem evaluate_condition_unhashable_op_raises :
    evaluate_condition [("a", PyVal.int 1)]
      [PyVal.str "a", PyVal.list [], PyVal.int 0] = Except.error () := rfl

/-- C3 (amended): `evaluate_condition` returns a clean `False` and never
raises when the triple has the wrong arity; when the field slot is a hashable
value that is not a present key (any string absent from the facts, or any
non-string scalar — checked before the operator, so an absent field masks
even a bad operator); when field and operator are strings but the operator is
outside the enumerated set (or the operator slot is a non-string scalar);
or when the dispatched comparison itself raises (`opsApply` yields `none`,
e.g. a type-incompatible ordering or `in` on a non-container), which the
`try` block catches.  (An unhashable field or operator slot instead raises.) -/
theorem evaluate_condition_fail_safe :
    (∀ (facts : Facts) (cond : List PyVal), cond.length ≠ 3 →
        evaluate_condition facts cond = Except.ok false) ∧
    (∀ (facts : Facts) (fs : String) (op value : PyVal),
        facts.any (fun p => p.1 == fs) = false →
        evaluate_condition facts [PyVal.str fs, op, value] = Except.ok false) ∧
    (∀ (facts : Facts) (n : Int) (op value : PyVal),
        evaluate_condition facts [PyVal.int n, op, value] = Except.ok false) ∧
    (∀ (facts : Facts) (b : Bool) (op value : PyVal),
        evaluate_condition facts [PyVal.bool b, op, value] = Except.ok false) ∧
    (∀ (facts : Facts) (op value : PyVal),
        evaluate_condition facts [PyVal.none, op, value] = Except.ok false) ∧
    (∀ (facts : Facts) (fs os : String) (value : PyVal),
        OPS.contains os = false →
        evaluate_condition facts [PyVal.str fs, PyVal.str os, value]
          = Except.ok false) ∧
    (∀ (facts : Facts) (fs : String) (n : Int) (value : PyVal),
        evaluate_condition facts [PyVal.str fs, PyVal.int n, value]
          = Except.ok false) ∧
    (∀ (facts : Facts) (fs : String) (b : Bool) (value : PyVal),
        evaluate_condition facts [PyVal.str fs, PyVal.bool b, value]
          = Except.ok false) ∧
    (∀ (facts : Facts) (fs : String) (value : PyVal),
        evaluate_condition facts [PyVal.str fs, PyVal.none, value]
          = Except.ok false) ∧
    (∀ (facts : Facts) (fs os : String) (value : PyVal),
        opsApply os (factsGet facts fs) value = Option.none →
        evaluate_condition facts [PyVal.str fs, PyVal.str os, value]
          = Except.ok false) := by
  refine ⟨?_, ?_, ?_, ?_, ?_, ?_, ?_, ?_, ?_, ?_⟩
  · intro facts cond h
    cases cond with
    | nil => rfl
    | cons a t =>
      cases t with
      | nil => rfl
      | cons b t2 =>
        cases t2 with
        | nil => rfl
        | cons c t3 =>
          cases t3 with
          | nil => exact absurd rfl h
          | cons d t4 => rfl
  · intro facts fs op value h
    simp [evaluate_condition, factsContains, h]
  · intro facts n op value
    rfl
  · intro facts b op value
    rfl
  · intro facts op value
    rfl
  · intro facts fs os value h
    cases hmem : facts.any (fun p => p.1 == fs) with
    | false => simp [evaluate_condition, factsContains, hmem]
    | true =>
      have h2 : ¬ os ∈ OPS := by simpa using h
      simp [evaluate_condition, factsContains, opInOps, hmem, h2]
  · intro facts fs n value
    cases hmem : facts.any (fun p => p.1 == fs) with
    | false => simp [evaluate_condition, factsContains, hmem]
    | true => simp [evaluate_condition, factsContains, opInOps, hmem]
  · intro facts fs b value
    cases hmem : facts.any (fun p => p.1 == fs) with
    | false => simp [evaluate_condition, factsContains, hmem]
    | true => simp [evaluate_condition, factsContains, opInOps, hmem]
  · intro facts fs value
    cases hmem : facts.any (fun p => p.1 == fs) with
    | false => simp [evaluate_condition, factsContains, hmem]
    | true => simp [evaluate_condition, factsContains, opInOps, hmem]
  · intro facts fs os value h
    cases hmem : facts.any (fun p => p.1 == fs) with
    | false => simp [evaluate_condition, factsContains, hmem]
    | true =>
      cases hop : OPS.contains os with
      | false =>
        have hop2 : ¬ os ∈ OPS := by simpa using hop
        simp [evaluate_condition, factsContains, opInOps, hmem, hop2]
      | true =>
        rw [evaluate_condition_present facts fs os value hmem hop, h]
        rfl

theorem evaluate_condition_fail_safe_witness :
    evaluate_condition [("a", PyVal.int 1)] [] = Except.ok false ∧
    evaluate_condition [("a", PyVal.int 1)]
      [PyVal.str "b", PyVal.str "==", PyVal.int 1] = Except.ok false ∧
    evaluate_condition [("a", PyVal.int 1)]
      [PyVal.str "a", PyVal.str "~~", PyVal.int 0] = Except.ok false ∧
    evaluate_condition [("a", PyVal.int 1)]
      [PyVal.str "a", PyVal.str "<", PyVal.str "x"] = Except.ok false :=
  ⟨evaluate_condition_fail_safe.1 [("a", PyVal.int 1)] [] (by decide),
   evaluate_condition_fail_safe.2.1 [("a", PyVal.int 1)] "b"
     (PyVal.str "==") (PyVal.int 1) rfl,
   evaluate_condition_fail_safe.2.2.2.2.2.1 [("a", PyVal.int 1)] "a" "~~"
     (PyVal.int 0) (by decide),
   (evaluate_condition_fail_safe.2.2.2.2.2.2.2.2.2) [("a", PyVal.int 1)] "a" "<"
     (PyVal.str "x") rfl⟩

/-- `strContains hay needle` holds exactly when `needle`'s characters occur
contiguously inside `hay`'s. -/
theorem strContains_iff (hay needle : String) :
    strContains hay needle = true ↔
      ∃ l r : List Char, hay.data = l ++ needle.data ++ r := by
  unfold strContains
  rw [List.any_eq_true]
  constructor
  · rintro ⟨i, hi, hpre⟩
    rw [List.isPrefixOf_iff_prefix] at hpre
    obtain ⟨t, ht⟩ := hpre
    refine ⟨hay.data.take i, t, ?_⟩
    rw [List.append_assoc, ht, List.take_append_drop]
  · rintro ⟨l, r, h⟩
    refine ⟨l.length, ?_, ?_⟩
    · rw [List.mem_range]
      have hlen : hay.length = hay.data.length := rfl
      rw [hlen, h]
      simp [Nat.lt_succ_iff]
    · rw [List.isPrefixOf_iff_prefix, h, List.append_assoc, List.drop_left]
      exact ⟨r, rfl⟩

/-- C10: with the condition's field bound to a string fact and a string
literal as the condition's value, `in` evaluates to the substring test (the
fact value occurring contiguously inside the literal) and `not_in` to its
complement — a cleanly returned boolean, not a non-container error. -/
theorem evaluate_condition_in_strings (facts : Facts) (fld a b : String)
    (hmem : facts.any (fun p => p.1 == fld) = true)
    (hget : factsGet facts fld = PyVal.str a) :
    evaluate_condition facts [PyVal.str fld, PyVal.str "in", PyVal.str b]
        = Except.ok (strContains b a) ∧
    evaluate_condition facts [PyVal.str fld, PyVal.str "not_in", PyVal.str b]
        = Except.ok (!strContains b a) ∧
    (strContains b a = true ↔ ∃ l r : List Char, b.data = l ++ a.data ++ r) := by
  refine ⟨?_, ?_, strContains_iff b a⟩
  · rw [evaluate_condition_present facts fld "in" (PyVal.str b) hmem (by decide),
        hget]
    rfl
  · rw [evaluate_condition_present facts fld "not_in" (PyVal.str b) hmem (by decide),
        hget]
    rfl

theorem evaluate_condition_in_strings_witness :
    evaluate_condition [("s", PyVal.str "bc")]
      [PyVal.str "s", PyVal.str "in", PyVal.str "abcd"]
      = Except.ok (strContains "abcd" "bc") :=
  (evaluate_condition_in_strings [("s", PyVal.str "bc")] "s" "bc" "abcd" rfl rfl).1

end RuleAC
